import Mathlib

/-!
Verification development for rclone's `fs/encodings` package
(`fs/encodings/encodings.go`): the registry of filename-encoding policies,
together with a model of the `lib/encoder` engine that the registry
configures.  The registry (policy table, `ByName`, `Local`, `Names`) is
embedded directly from the source; the encoder engine itself
(`encoder.MultiEncoder` with its `Encode`/`Decode` methods and the flag
constants) is not part of the source tree considered here, so it is
modelled from the specification: each flag is a reversible character/byte
substitution, content-level rules apply everywhere, position-level rules
apply only to the first/last character of the name, and invalid UTF-8
bytes are escaped by a private, unambiguous multi-character escape.
-/

namespace Encodings

/-- A token of a name.  Modelled from the spec: names are byte sequences,
possibly invalid UTF-8; the missing `lib/encoder` package works on the
unique decomposition of such a byte sequence into valid Unicode codepoints
(`chr c`) and bytes that are not part of any valid UTF-8 sequence
(`bad b`).  A name is a `List Tok`. -/
inductive Tok where
  | chr (c : Nat)
  | bad (b : Nat)
  deriving DecidableEq, Repr

/-- A composition of rule flags: one Boolean per named restriction rule of
the spec's flag table.  Modelled from the spec: `encoder.MultiEncoder` (a
bitmask, not under src/) is represented as a record of flag Booleans. -/
structure MultiEncoder where
  encodeZero : Bool
  encodeSlash : Bool
  encodeWin : Bool
  encodeBackSlash : Bool
  encodeDel : Bool
  encodeCtl : Bool
  encodeLeftSpace : Bool
  encodeRightSpace : Bool
  encodeLeftPeriod : Bool
  encodeRightPeriod : Bool
  encodeLeftTilde : Bool
  encodeLeftCrLfHtVt : Bool
  encodeRightCrLfHtVt : Bool
  encodeHashPercent : Bool
  encodeInvalidUtf8 : Bool
  deriving DecidableEq, Repr

/-- The empty flag set (no rule active). -/
def noFlags : MultiEncoder :=
  { encodeZero := false, encodeSlash := false, encodeWin := false
    encodeBackSlash := false, encodeDel := false, encodeCtl := false
    encodeLeftSpace := false, encodeRightSpace := false
    encodeLeftPeriod := false, encodeRightPeriod := false
    encodeLeftTilde := false, encodeLeftCrLfHtVt := false
    encodeRightCrLfHtVt := false, encodeHashPercent := false
    encodeInvalidUtf8 := false }

/-- Union of two flag sets: the model of the bitwise `|` used in the
source to combine `encoder.Encode...` flag constants. -/
def MultiEncoder.or (a b : MultiEncoder) : MultiEncoder :=
  { encodeZero := a.encodeZero || b.encodeZero
    encodeSlash := a.encodeSlash || b.encodeSlash
    encodeWin := a.encodeWin || b.encodeWin
    encodeBackSlash := a.encodeBackSlash || b.encodeBackSlash
    encodeDel := a.encodeDel || b.encodeDel
    encodeCtl := a.encodeCtl || b.encodeCtl
    encodeLeftSpace := a.encodeLeftSpace || b.encodeLeftSpace
    encodeRightSpace := a.encodeRightSpace || b.encodeRightSpace
    encodeLeftPeriod := a.encodeLeftPeriod || b.encodeLeftPeriod
    encodeRightPeriod := a.encodeRightPeriod || b.encodeRightPeriod
    encodeLeftTilde := a.encodeLeftTilde || b.encodeLeftTilde
    encodeLeftCrLfHtVt := a.encodeLeftCrLfHtVt || b.encodeLeftCrLfHtVt
    encodeRightCrLfHtVt := a.encodeRightCrLfHtVt || b.encodeRightCrLfHtVt
    encodeHashPercent := a.encodeHashPercent || b.encodeHashPercent
    encodeInvalidUtf8 := a.encodeInvalidUtf8 || b.encodeInvalidUtf8 }

/-- Flag constant `encoder.EncodeZero` (trigger: the NUL byte). -/
def EncodeZero : MultiEncoder := { noFlags with encodeZero := true }

/-- Flag constant `encoder.EncodeSlash` (trigger: the slash). -/
def EncodeSlash : MultiEncoder := { noFlags with encodeSlash := true }

/-- Flag constant `encoder.EncodeWin` (trigger: the Windows-reserved set). -/
def EncodeWin : MultiEncoder := { noFlags with encodeWin := true }

/-- Flag constant `encoder.EncodeBackSlash` (trigger: the backslash). -/
def EncodeBackSlash : MultiEncoder := { noFlags with encodeBackSlash := true }

/-- Flag constant `encoder.EncodeDel` (trigger: the DEL control byte). -/
def EncodeDel : MultiEncoder := { noFlags with encodeDel := true }

/-- Flag constant `encoder.EncodeCtl` (trigger: the C0 control bytes). -/
def EncodeCtl : MultiEncoder := { noFlags with encodeCtl := true }

/-- Flag constant `encoder.EncodeLeftSpace` (trigger: a leading space). -/
def EncodeLeftSpace : MultiEncoder := { noFlags with encodeLeftSpace := true }

/-- Flag constant `encoder.EncodeRightSpace` (trigger: a trailing space). -/
def EncodeRightSpace : MultiEncoder := { noFlags with encodeRightSpace := true }

/-- Flag constant `encoder.EncodeLeftPeriod` (trigger: a leading period). -/
def EncodeLeftPeriod : MultiEncoder := { noFlags with encodeLeftPeriod := true }

/-- Flag constant `encoder.EncodeRightPeriod` (trigger: a trailing period). -/
def EncodeRightPeriod : MultiEncoder := { noFlags with encodeRightPeriod := true }

/-- Flag constant `encoder.EncodeLeftTilde` (trigger: a leading tilde). -/
def EncodeLeftTilde : MultiEncoder := { noFlags with encodeLeftTilde := true }

/-- Flag constant `encoder.EncodeLeftCrLfHtVt` (trigger: leading CR, LF, HT or VT). -/
def EncodeLeftCrLfHtVt : MultiEncoder := { noFlags with encodeLeftCrLfHtVt := true }

/-- Flag constant `encoder.EncodeRightCrLfHtVt` (trigger: trailing CR, LF, HT or VT). -/
def EncodeRightCrLfHtVt : MultiEncoder := { noFlags with encodeRightCrLfHtVt := true }

/-- Flag constant `encoder.EncodeHashPercent` (trigger: hash and percent). -/
def EncodeHashPercent : MultiEncoder := { noFlags with encodeHashPercent := true }

/-- Flag constant `encoder.EncodeInvalidUtf8` (trigger: invalid UTF-8 bytes). -/
def EncodeInvalidUtf8 : MultiEncoder := { noFlags with encodeInvalidUtf8 := true }

/-- Base only encodes the zero byte and slash (encodings.go line 13). -/
def Base : MultiEncoder := EncodeZero.or EncodeSlash

/-- Modelled from the spec: `encoder.Standard` (in the missing
`lib/encoder` package) is taken as the base content-level rules: zero,
slash, the C0 control bytes and DEL. -/
def Standard : MultiEncoder := EncodeZero.or (EncodeSlash.or (EncodeCtl.or EncodeDel))

/-- Display is the internal encoding for logging and output. -/
def Display : MultiEncoder := Standard

/-- LocalUnix is the encoding used by the local backend for non windows
platforms. -/
def LocalUnix : MultiEncoder := Base

/-- LocalWindows is the encoding used by the local backend for windows
platforms. -/
def LocalWindows : MultiEncoder :=
  Base.or (EncodeWin.or (EncodeBackSlash.or (EncodeCtl.or
    (EncodeRightSpace.or (EncodeRightPeriod.or EncodeInvalidUtf8)))))

/-- AmazonCloudDrive is the encoding used by the amazonclouddrive backend. -/
def AmazonCloudDrive : MultiEncoder := Base.or EncodeInvalidUtf8

/-- B2 is the encoding used by the b2 backend. -/
def B2 : MultiEncoder := Display.or (EncodeBackSlash.or EncodeInvalidUtf8)

/-- Box is the encoding used by the box backend. -/
def Box : MultiEncoder :=
  Display.or (EncodeBackSlash.or (EncodeRightSpace.or EncodeInvalidUtf8))

/-- Drive is the encoding used by the drive backend. -/
def Drive : MultiEncoder := EncodeInvalidUtf8

/-- Dropbox is the encoding used by the dropbox backend. -/
def Dropbox : MultiEncoder :=
  Base.or (EncodeBackSlash.or (EncodeDel.or (EncodeRightSpace.or EncodeInvalidUtf8)))

/-- GoogleCloudStorage is the encoding used by the googlecloudstorage backend. -/
def GoogleCloudStorage : MultiEncoder := Base.or EncodeInvalidUtf8

/-- JottaCloud is the encoding used by the jottacloud backend. -/
def JottaCloud : MultiEncoder := Display.or EncodeInvalidUtf8

/-- Koofr is the encoding used by the koofr backend. -/
def Koofr : MultiEncoder := Display.or (EncodeBackSlash.or EncodeInvalidUtf8)

/-- Mega is the encoding used by the mega backend. -/
def Mega : MultiEncoder := Base.or EncodeInvalidUtf8

/-- OneDrive is the encoding used by the onedrive backend. -/
def OneDrive : MultiEncoder :=
  Display.or (EncodeBackSlash.or (EncodeHashPercent.or (EncodeLeftSpace.or
    (EncodeLeftTilde.or (EncodeRightPeriod.or (EncodeRightSpace.or
      (EncodeWin.or EncodeInvalidUtf8)))))))

/-- OpenDrive is the encoding used by the opendrive backend. -/
def OpenDrive : MultiEncoder :=
  Base.or (EncodeWin.or (EncodeLeftCrLfHtVt.or (EncodeRightCrLfHtVt.or
    (EncodeBackSlash.or (EncodeLeftSpace.or (EncodeRightSpace.or
      EncodeInvalidUtf8))))))

/-- Pcloud is the encoding used by the pcloud backend. -/
def Pcloud : MultiEncoder := Base.or EncodeInvalidUtf8

/-!
The encoder engine.  Modelled from the spec: each flag substitutes its
trigger characters with a reserved codepoint (a fullwidth lookalike or a
control-picture symbol), position-level flags substitute only the first or
last character of the name, invalid UTF-8 bytes are escaped by a private,
unambiguous multi-character escape (a quote rune followed by two hex
digits), and any input character that collides with a reserved codepoint
of an active flag (or with the quote rune itself) is made unambiguous by
prefixing it with the quote rune, so that `Decode` is an exact inverse of
`Encode` on every input.
-/

/-- Reserved quote codepoint used for the byte escape and to protect input
characters that collide with a reserved substitute codepoint. -/
def QuoteRune : Nat := 0x201B

/-- Substitute codepoint for a trigger character: control pictures for the
C0 bytes, SYMBOL FOR SPACE for the space, a control picture for DEL, and
the fullwidth lookalike for printable ASCII triggers. -/
def subst (c : Nat) : Nat :=
  if c < 0x20 then 0x2400 + c
  else if c = 0x20 then 0x2420
  else if c = 0x7F then 0x2421
  else 0xFEE0 + c

/-- Inverse of `subst`: recover the trigger character from a reserved
substitute codepoint, or `none` for an ordinary codepoint. -/
def substInv (s : Nat) : Option Nat :=
  if 0x2400 ≤ s ∧ s ≤ 0x241F then some (s - 0x2400)
  else if s = 0x2420 then some 0x20
  else if s = 0x2421 then some 0x7F
  else if 0xFF01 ≤ s ∧ s ≤ 0xFF5E then some (s - 0xFEE0)
  else none

/-- Membership in the Windows-reserved character set of `EncodeWin`. -/
def isWinChar (c : Nat) : Bool :=
  c == 0x3C || c == 0x3E || c == 0x3A || c == 0x22 || c == 0x7C ||
    c == 0x3F || c == 0x2A

/-- Membership in the CR/LF/HT/VT set of the `...CrLfHtVt` flags. -/
def isCrLfHtVt (c : Nat) : Bool :=
  c == 0x09 || c == 0x0A || c == 0x0B || c == 0x0D

/-- Content-level trigger: the character is substituted wherever it
occurs under the given flag set. -/
def contentTrigger (P : MultiEncoder) (c : Nat) : Bool :=
  (P.encodeZero && c == 0x00) ||
  (P.encodeSlash && c == 0x2F) ||
  (P.encodeWin && isWinChar c) ||
  (P.encodeBackSlash && c == 0x5C) ||
  (P.encodeDel && c == 0x7F) ||
  (P.encodeCtl && (decide (1 ≤ c) && decide (c ≤ 0x1F))) ||
  (P.encodeHashPercent && (c == 0x23 || c == 0x25))

/-- Position-level trigger for the first character of the name. -/
def leftTrigger (P : MultiEncoder) (c : Nat) : Bool :=
  (P.encodeLeftSpace && c == 0x20) ||
  (P.encodeLeftPeriod && c == 0x2E) ||
  (P.encodeLeftTilde && c == 0x7E) ||
  (P.encodeLeftCrLfHtVt && isCrLfHtVt c)

/-- Position-level trigger for the last character of the name. -/
def rightTrigger (P : MultiEncoder) (c : Nat) : Bool :=
  (P.encodeRightSpace && c == 0x20) ||
  (P.encodeRightPeriod && c == 0x2E) ||
  (P.encodeRightCrLfHtVt && isCrLfHtVt c)

/-- A character that triggers some active flag at some position: its
substitute codepoint is reserved under this flag set, and `Decode`
inverts it. -/
def activeTrigger (P : MultiEncoder) (c : Nat) : Bool :=
  contentTrigger P c || leftTrigger P c || rightTrigger P c

/-- Uppercase hex digit for a value below 16. -/
def hexDigit (n : Nat) : Nat := if n < 10 then 0x30 + n else 0x37 + n

/-- Recognizer for the uppercase hex digit codepoints. -/
def isHexDigit (c : Nat) : Bool :=
  (decide (0x30 ≤ c) && decide (c ≤ 0x39)) ||
    (decide (0x41 ≤ c) && decide (c ≤ 0x46))

/-- Value of an uppercase hex digit codepoint. -/
def hexVal (c : Nat) : Nat := if c ≤ 0x39 then c - 0x30 else c - 0x37

/-- Quoting condition: the character would collide with the output
alphabet of the active flags (a reserved substitute codepoint of an
active trigger, or the quote rune itself). -/
def quoteNeeded (P : MultiEncoder) (c : Nat) : Bool :=
  c == QuoteRune ||
    (match substInv c with
     | some o => activeTrigger P o
     | none => false)

/-- Encoding of one token, given whether it is the first and/or last
token of the name: substitution for triggered characters, the hex escape
for invalid bytes, quoting for colliding characters, identity otherwise. -/
def encodeTok (P : MultiEncoder) (isFirst isLast : Bool) : Tok → List Tok
  | .bad b =>
    if P.encodeInvalidUtf8 then
      [.chr QuoteRune, .chr (hexDigit (b / 16)), .chr (hexDigit (b % 16))]
    else [.bad b]
  | .chr c =>
    if contentTrigger P c || (isFirst && leftTrigger P c) ||
        (isLast && rightTrigger P c) then
      [.chr (subst c)]
    else if quoteNeeded P c then [.chr QuoteRune, .chr c]
    else [.chr c]

/-- Worker for `Encode`: walks the token list tracking whether the
current token is the first one; the last one is the one with an empty
tail. -/
def encodeGo (P : MultiEncoder) : Bool → List Tok → List Tok
  | _, [] => []
  | isFirst, t :: rest => encodeTok P isFirst rest.isEmpty t ++ encodeGo P false rest

/-- Encode a name under a policy.  Modelled from the spec: applies every
active flag's substitution (content rules everywhere, position rules at
the name's boundary), escapes invalid bytes, and quotes collisions. -/
def Encode (P : MultiEncoder) (ts : List Tok) : List Tok := encodeGo P true ts

/-- Decoder state: scanning normally, just after a quote rune, or after a
quote rune and one hex digit. -/
inductive DSt where
  | plain
  | quote
  | hexPend (x : Nat)
  deriving DecidableEq, Repr

/-- Decoding of one unquoted character: a reserved substitute codepoint of
an active trigger maps back to its trigger character, anything else is
itself. -/
def decodeChar (P : MultiEncoder) (q : Nat) : Tok :=
  match substInv q with
  | some o => if activeTrigger P o then .chr o else .chr q
  | none => .chr q

/-- One decoder step: the quote rune followed by two hex digits is an
escaped invalid byte, the quote rune followed by any other character is
that literal character, and an unquoted character decodes by
`decodeChar`. -/
def decStep (P : MultiEncoder) (st : DSt) (t : Tok) : List Tok × DSt :=
  match st, t with
  | .plain, .bad b => ([.bad b], .plain)
  | .plain, .chr q =>
    if q == QuoteRune then ([], .quote) else ([decodeChar P q], .plain)
  | .quote, .bad b => ([.chr QuoteRune, .bad b], .plain)
  | .quote, .chr x =>
    if isHexDigit x then ([], .hexPend x) else ([.chr x], .plain)
  | .hexPend x, .bad b => ([.chr x, .bad b], .plain)
  | .hexPend x, .chr y =>
    if isHexDigit y then ([.bad (16 * hexVal x + hexVal y)], .plain)
    else if y == QuoteRune then ([.chr x], .quote)
    else ([.chr x, decodeChar P y], .plain)

/-- Tokens emitted for a dangling decoder state at the end of the input
(never reached on encoder output). -/
def decFlush : DSt → List Tok
  | .plain => []
  | .quote => [.chr QuoteRune]
  | .hexPend x => [.chr x]

/-- Worker for `Decode`: runs the decoder state machine over the tokens. -/
def decGo (P : MultiEncoder) : DSt → List Tok → List Tok
  | st, [] => decFlush st
  | st, t :: rest => (decStep P st t).1 ++ decGo P (decStep P st t).2 rest

/-- Decode a name under a policy: exact inverse of `Encode` under the same
policy. -/
def Decode (P : MultiEncoder) (ts : List Tok) : List Tok := decGo P .plain ts

/-- Well-formedness of one token: an invalid byte is an actual byte. -/
def wfTok : Tok → Bool
  | .chr _ => true
  | .bad b => decide (b < 256)

/-- Well-formedness of a name: every invalid byte is below 256. -/
def wfName (ts : List Tok) : Bool := ts.all wfTok

/-- View of an ASCII Lean string as a name (a list of codepoint tokens),
for concrete test inputs. -/
def chrs (s : String) : List Tok := s.data.map (fun c => Tok.chr c.toNat)

/-!
The registry (embedded from `fs/encodings/encodings.go`).  A Go string is
a byte sequence; backend identifiers are ASCII, so they are embedded as
lists of byte values.  The platform string `runtime.GOOS` is passed as an
explicit parameter.
-/

/-- View of an ASCII Lean string as a Go string (a list of byte values). -/
def str (s : String) : List Nat := s.data.map Char.toNat

/-- Lowercasing of one byte: the ASCII fragment of Go's case mapping. -/
def toLowerByte (c : Nat) : Nat := if 65 ≤ c ∧ c ≤ 90 then c + 32 else c

/-- Embedding of Go's `strings.ToLower` on backend identifiers (ASCII
case mapping, applied bytewise). -/
def stringsToLower (s : List Nat) : List Nat := s.map toLowerByte

/-- Local returns the local encoding for the current platform
(encodings.go line 274); `goos` stands for `runtime.GOOS`. -/
def Local (goos : List Nat) : MultiEncoder :=
  if goos = str "windows" then LocalWindows else LocalUnix

/-- ByName returns the encoder for a give backend name or nil
(encodings.go line 221); the Go `switch` on `strings.ToLower(name)` is
embedded as a chain of equality tests in the source's case order. -/
def ByName (goos : List Nat) (name : List Nat) : Option MultiEncoder :=
  let s := stringsToLower name
  if s = str "base" then some Base
  else if s = str "display" then some Display
  else if s = str "amazonclouddrive" then some AmazonCloudDrive
  else if s = str "b2" then some B2
  else if s = str "box" then some Box
  else if s = str "drive" then some Drive
  else if s = str "dropbox" then some Dropbox
  else if s = str "googlecloudstorage" then some GoogleCloudStorage
  else if s = str "jottacloud" then some JottaCloud
  else if s = str "koofr" then some Koofr
  else if s = str "local" then some (Local goos)
  else if s = str "local-windows" ∨ s = str "windows" then some LocalWindows
  else if s = str "local-unix" ∨ s = str "unix" then some LocalUnix
  else if s = str "mega" then some Mega
  else if s = str "onedrive" then some OneDrive
  else if s = str "opendrive" then some OpenDrive
  else if s = str "pcloud" then some Pcloud
  else none

/-- Names returns the list of known encodings as accepted by ByName
(encodings.go line 282). -/
def Names : List (List Nat) :=
  [str "base",
   str "display",
   str "amazonclouddrive",
   str "b2",
   str "box",
   str "drive",
   str "dropbox",
   str "googlecloudstorage",
   str "jottacloud",
   str "koofr",
   str "local-unix",
   str "local-windows",
   str "local",
   str "mega",
   str "onedrive",
   str "opendrive",
   str "pcloud"]

/-- The case labels of the `ByName` switch: every identifier with a
registry entry, the two platform aliases included. -/
def registryKeys : List (List Nat) :=
  [str "base", str "display", str "amazonclouddrive", str "b2", str "box",
   str "drive", str "dropbox", str "googlecloudstorage", str "jottacloud",
   str "koofr", str "local", str "local-windows", str "windows",
   str "local-unix", str "unix", str "mega", str "onedrive",
   str "opendrive", str "pcloud"]

/-!
Round-trip correctness of the modelled engine: `Decode P (Encode P ts) = ts`
for every flag set `P` and every well-formed name `ts`.
-/

/-- Hex digits produced by `hexDigit` are recognized by `isHexDigit`. -/
theorem hexDigit_isHex : ∀ n, n < 16 → isHexDigit (hexDigit n) = true := by decide

/-- Value of a produced hex digit is the encoded value. -/
theorem hexVal_hexDigit : ∀ n, n < 16 → hexVal (hexDigit n) = n := by decide

/-- A substitute codepoint of a trigger character maps back to it. -/
theorem substInv_subst : ∀ c, c < 128 → substInv (subst c) = some c := by decide

/-- No substitute codepoint of a trigger character is the quote rune. -/
theorem subst_ne_quote : ∀ c, c < 128 → (subst c == QuoteRune) = false := by decide

/-- Trigger characters of every flag are ASCII. -/
theorem activeTrigger_lt {P : MultiEncoder} {c : Nat} (h : activeTrigger P c = true) :
    c < 128 := by
  by_contra hc
  have hc' : 128 ≤ c := Nat.le_of_not_lt hc
  have hb : ∀ k : Nat, k < 128 → (c == k) = false := by
    intro k hk
    simp only [beq_eq_false_iff_ne, ne_eq]
    omega
  have hd : decide (c ≤ 0x1F) = false := by
    simp only [decide_eq_false_iff_not, not_le]
    omega
  simp only [activeTrigger, contentTrigger, leftTrigger, rightTrigger, isWinChar, isCrLfHtVt,
    hb 0x00 (by omega), hb 0x2F (by omega), hb 0x3C (by omega), hb 0x3E (by omega),
    hb 0x3A (by omega), hb 0x22 (by omega), hb 0x7C (by omega), hb 0x3F (by omega),
    hb 0x2A (by omega), hb 0x5C (by omega), hb 0x7F (by omega), hb 0x23 (by omega),
    hb 0x25 (by omega), hb 0x20 (by omega), hb 0x2E (by omega), hb 0x7E (by omega),
    hb 0x09 (by omega), hb 0x0A (by omega), hb 0x0B (by omega), hb 0x0D (by omega),
    hd, Bool.and_false, Bool.false_and, Bool.or_false, Bool.false_or, Bool.or_self,
    Bool.and_self] at h
  simp at h

/-- The full trigger condition of `encodeTok` implies the position-free
trigger used by `Decode`. -/
theorem encodeCond_active {P : MultiEncoder} {f l : Bool} {c : Nat}
    (h : (contentTrigger P c || (f && leftTrigger P c) || (l && rightTrigger P c)) = true) :
    activeTrigger P c = true := by
  simp only [activeTrigger, Bool.or_eq_true, Bool.and_eq_true] at h ⊢
  tauto

/-- A codepoint with a substitute preimage is at least U+2400. -/
theorem substInv_ge {s o : Nat} (h : substInv s = some o) : 0x2400 ≤ s := by
  unfold substInv at h
  split at h
  · omega
  · split at h
    · omega
    · split at h
      · omega
      · split at h
        · omega
        · exact absurd h (by simp)

/-- A quoted character is never a hex digit. -/
theorem quoteNeeded_not_hex {P : MultiEncoder} {c : Nat} (h : quoteNeeded P c = true) :
    isHexDigit c = false := by
  simp only [quoteNeeded, Bool.or_eq_true, beq_iff_eq] at h
  rcases h with h | h
  · subst h
    decide
  · cases hsi : substInv c with
    | none =>
      rw [hsi] at h
      simp at h
    | some o =>
      have hge := substInv_ge hsi
      rw [Bool.eq_false_iff]
      intro hh
      simp only [isHexDigit, Bool.or_eq_true, Bool.and_eq_true, decide_eq_true_eq] at hh
      omega

/-- Key block lemma: decoding the encoding of one token, followed by
anything, emits exactly that token and proceeds from the plain state. -/
theorem decGo_encodeTok (P : MultiEncoder) (f l : Bool) (t : Tok) (h : wfTok t = true)
    (rest : List Tok) :
    decGo P .plain (encodeTok P f l t ++ rest) = t :: decGo P .plain rest := by
  cases t with
  | bad b =>
    have hb : b < 256 := by simpa [wfTok] using h
    cases hP : P.encodeInvalidUtf8 with
    | false => simp [encodeTok, hP, decGo, decStep]
    | true =>
      have h1 : isHexDigit (hexDigit (b / 16)) = true := hexDigit_isHex _ (by omega)
      have h2 : isHexDigit (hexDigit (b % 16)) = true := hexDigit_isHex _ (by omega)
      have h3 : 16 * hexVal (hexDigit (b / 16)) + hexVal (hexDigit (b % 16)) = b := by
        rw [hexVal_hexDigit _ (by omega), hexVal_hexDigit _ (by omega)]
        omega
      simp [encodeTok, hP, decGo, decStep, h1, h2, h3]
  | chr c =>
    by_cases h1 :
        (contentTrigger P c || (f && leftTrigger P c) || (l && rightTrigger P c)) = true
    · have hact : activeTrigger P c = true := encodeCond_active h1
      have hlt : c < 128 := activeTrigger_lt hact
      have hqn : (subst c == QuoteRune) = false := subst_ne_quote c hlt
      have hsi : substInv (subst c) = some c := substInv_subst c hlt
      simp [encodeTok, h1, decGo, decStep, decodeChar, hqn, hsi, hact]
    · have h1' :
          (contentTrigger P c || (f && leftTrigger P c) || (l && rightTrigger P c)) = false :=
        Bool.eq_false_iff.mpr h1
      by_cases h2 : quoteNeeded P c = true
      · have hnx : isHexDigit c = false := quoteNeeded_not_hex h2
        simp [encodeTok, h1', h2, decGo, decStep, hnx]
      · have h2' : quoteNeeded P c = false := Bool.eq_false_iff.mpr h2
        have hq : (c == QuoteRune) = false := by
          simp only [quoteNeeded, Bool.or_eq_false_iff] at h2'
          exact h2'.1
        cases hsi : substInv c with
        | none => simp [encodeTok, h1', h2', decGo, decStep, hq, decodeChar, hsi]
        | some o =>
          have ho : activeTrigger P o = false := by
            simp only [quoteNeeded, Bool.or_eq_false_iff, hsi] at h2'
            exact h2'.2
          simp [encodeTok, h1', h2', decGo, decStep, hq, decodeChar, hsi, ho]

/-- Decoding inverts the encoding worker for any first-position flag. -/
theorem decGo_encodeGo (P : MultiEncoder) (ts : List Tok) (h : wfName ts = true) :
    ∀ f : Bool, decGo P .plain (encodeGo P f ts) = ts := by
  induction ts with
  | nil => intro f; rfl
  | cons t rest ih =>
    intro f
    simp only [wfName, List.all_cons, Bool.and_eq_true] at h
    simp only [encodeGo]
    rw [decGo_encodeTok P f rest.isEmpty t h.1]
    rw [ih (by simpa [wfName] using h.2) false]

/-- Round-trip: `Decode` under a policy is an exact inverse of `Encode`
under the same policy, for every flag set and every well-formed name. -/
theorem decode_encode (P : MultiEncoder) (ts : List Tok) (h : wfName ts = true) :
    Decode P (Encode P ts) = ts := decGo_encodeGo P ts h true

/-!
Registry lemmas.
-/

/-- ASCII lowercasing of a byte is idempotent. -/
theorem toLowerByte_idem (c : Nat) : toLowerByte (toLowerByte c) = toLowerByte c := by
  unfold toLowerByte
  by_cases h : 65 ≤ c ∧ c ≤ 90
  · rw [if_pos h, if_neg (by omega)]
  · rw [if_neg h, if_neg h]

/-- The embedded `strings.ToLower` is idempotent. -/
theorem stringsToLower_idem (s : List Nat) :
    stringsToLower (stringsToLower s) = stringsToLower s := by
  induction s with
  | nil => rfl
  | cons c rest ih =>
    simp only [stringsToLower, List.map_cons] at ih ⊢
    rw [toLowerByte_idem]
    rw [show List.map toLowerByte (List.map toLowerByte rest) = List.map toLowerByte rest
      from ih]

/-- Every name of the `Names` list has a registry entry. -/
theorem byName_mem_names_isSome (goos : List Nat) :
    ∀ n ∈ Names, (ByName goos n).isSome = true := by
  intro n hn
  fin_cases hn <;> rfl

/-!
Claim theorems.
-/

/-- Claim C1: for every Policy in the registry (every result of `ByName`)
and every byte sequence interpretable as a name (every well-formed token
list, invalid bytes included), `Decode` after `Encode` under the same
Policy is the identity. -/
theorem C1_registry_roundtrip (goos name : List Nat) (P : MultiEncoder)
    (_hP : ByName goos name = some P) (ts : List Tok) (h : wfName ts = true) :
    Decode P (Encode P ts) = ts :=
  decode_encode P ts h

/-- Witness for C1: the Dropbox Policy round-trips a name holding an
invalid byte, a slash and a non-ASCII codepoint. -/
theorem C1_registry_roundtrip_witness :
    ByName (str "linux") (str "dropbox") = some Dropbox ∧
    wfName [Tok.bad 128, Tok.chr 47, Tok.chr 8252] = true ∧
    Decode Dropbox (Encode Dropbox [Tok.bad 128, Tok.chr 47, Tok.chr 8252]) =
      [Tok.bad 128, Tok.chr 47, Tok.chr 8252] :=
  ⟨rfl, by decide,
    C1_registry_roundtrip (str "linux") (str "dropbox") Dropbox rfl
      [Tok.bad 128, Tok.chr 47, Tok.chr 8252] (by decide)⟩

/-- Claim C2: registry lookup is case-insensitive: `ByName` of any name
equals `ByName` of its lowercase form, and in particular "DROPBOX" and
"dropbox" both resolve to the Dropbox Policy. -/
theorem C2_byName_case_insensitive (goos n : List Nat) :
    ByName goos n = ByName goos (stringsToLower n) ∧
    ByName goos (str "DROPBOX") = some Dropbox ∧
    ByName goos (str "dropbox") = some Dropbox := by
  refine ⟨?_, rfl, rfl⟩
  simp only [ByName]
  rw [stringsToLower_idem]

/-- Claim C3: a name that matches no case label of the `ByName` switch
(case-insensitively) returns the explicit not-found value `none`. -/
theorem C3_byName_unknown_none (goos n : List Nat)
    (h : stringsToLower n ∉ registryKeys) :
    ByName goos n = none := by
  simp only [ByName]
  rw [if_neg (fun he => h (by rw [he]; decide)),
    if_neg (fun he => h (by rw [he]; decide)),
    if_neg (fun he => h (by rw [he]; decide)),
    if_neg (fun he => h (by rw [he]; decide)),
    if_neg (fun he => h (by rw [he]; decide)),
    if_neg (fun he => h (by rw [he]; decide)),
    if_neg (fun he => h (by rw [he]; decide)),
    if_neg (fun he => h (by rw [he]; decide)),
    if_neg (fun he => h (by rw [he]; decide)),
    if_neg (fun he => h (by rw [he]; decide)),
    if_neg (fun he => h (by rw [he]; decide)),
    if_neg (fun he =>
      he.elim (fun h1 => h (by rw [h1]; decide)) (fun h1 => h (by rw [h1]; decide))),
    if_neg (fun he =>
      he.elim (fun h1 => h (by rw [h1]; decide)) (fun h1 => h (by rw [h1]; decide))),
    if_neg (fun he => h (by rw [he]; decide)),
    if_neg (fun he => h (by rw [he]; decide)),
    if_neg (fun he => h (by rw [he]; decide)),
    if_neg (fun he => h (by rw [he]; decide))]

/-- Witness for C3: the commented-out backend name "s3" resolves to
`none`. -/
theorem C3_byName_unknown_none_witness :
    ByName (str "linux") (str "s3") = none :=
  C3_byName_unknown_none (str "linux") (str "s3") (by decide)

/-- Claim C4: `Local` returns the Windows-profile Policy exactly when the
platform string is "windows" and the Unix-profile Policy otherwise (the
two profiles being distinct), and `ByName` of "local" returns this same
platform-dependent Policy. -/
theorem C4_local_platform (goos : List Nat) :
    (goos = str "windows" → Local goos = LocalWindows) ∧
    (goos ≠ str "windows" → Local goos = LocalUnix) ∧
    LocalWindows ≠ LocalUnix ∧
    ByName goos (str "local") = some (Local goos) := by
  refine ⟨fun h => ?_, fun h => ?_, by decide, rfl⟩
  · rw [Local, if_pos h]
  · rw [Local, if_neg h]

/-- Witness for C4: the Windows and a non-Windows platform pick the two
profiles. -/
theorem C4_local_platform_witness :
    Local (str "windows") = LocalWindows ∧ Local (str "linux") = LocalUnix :=
  ⟨(C4_local_platform (str "windows")).1 rfl,
    (C4_local_platform (str "linux")).2.1 (by decide)⟩

/-- Claim C5: every name in the `Names` list resolves to a Policy via
`ByName`. -/
theorem C5_names_resolve (goos : List Nat) :
    ∀ n ∈ Names, (ByName goos n).isSome = true :=
  byName_mem_names_isSome goos

/-- Witness for C5: "dropbox" is in `Names` and resolves. -/
theorem C5_names_resolve_witness :
    (ByName (str "linux") (str "dropbox")).isSome = true :=
  C5_names_resolve (str "linux") (str "dropbox") (by decide)

/-- Claim C6: the Unix local Policy equals Base and activates exactly the
zero-byte and slash flags; encoding "a/b" followed by a NUL byte and "c"
substitutes only the slash (fullwidth solidus U+FF0F) and the NUL byte
(SYMBOL FOR NULL U+2400), and decoding restores the input unchanged. -/
theorem C6_localUnix_base_example :
    LocalUnix = Base ∧
    LocalUnix = { noFlags with encodeZero := true, encodeSlash := true } ∧
    Encode LocalUnix (chrs "a/b\x00c") =
      [Tok.chr 97, Tok.chr 0xFF0F, Tok.chr 98, Tok.chr 0x2400, Tok.chr 99] ∧
    Decode LocalUnix (Encode LocalUnix (chrs "a/b\x00c")) = chrs "a/b\x00c" := by
  refine ⟨rfl, by decide, by decide, by decide⟩

/-- Claim C7: the Windows local Policy activates the trailing-space and
trailing-period flags; a trailing space becomes SYMBOL FOR SPACE U+2420
and a trailing period becomes FULLWIDTH FULL STOP U+FF0E, both restored by
`Decode`, while interior spaces and periods are untouched. -/
theorem C7_localWindows_trailing_examples :
    LocalWindows.encodeRightSpace = true ∧
    LocalWindows.encodeRightPeriod = true ∧
    Encode LocalWindows (chrs "file.txt ") = chrs "file.txt" ++ [Tok.chr 0x2420] ∧
    Decode LocalWindows (Encode LocalWindows (chrs "file.txt ")) = chrs "file.txt " ∧
    Encode LocalWindows (chrs "con.") = chrs "con" ++ [Tok.chr 0xFF0E] ∧
    Decode LocalWindows (Encode LocalWindows (chrs "con.")) = chrs "con." ∧
    Encode LocalWindows (chrs "a .b") = chrs "a .b" := by
  decide

/-- Claim C8: the OneDrive Policy activates the leading-tilde flag;
encoding "~folder" substitutes the leading tilde with the fullwidth tilde
U+FF5E and the result decodes back to "~folder". -/
theorem C8_oneDrive_tilde_example :
    OneDrive.encodeLeftTilde = true ∧
    Encode OneDrive (chrs "~folder") = Tok.chr 0xFF5E :: chrs "folder" ∧
    Decode OneDrive (Encode OneDrive (chrs "~folder")) = chrs "~folder" := by
  decide

/-- Claim C10: `ByName` accepts the aliases "windows" and "unix", mapping
them to the same Policies as "local-windows" and "local-unix", yet neither
alias appears in `Names`, while every name of `Names` is accepted: the
accepted set strictly contains `Names`. -/
theorem C10_aliases_strict (goos : List Nat) :
    ByName goos (str "windows") = some LocalWindows ∧
    ByName goos (str "unix") = some LocalUnix ∧
    ByName goos (str "local-windows") = some LocalWindows ∧
    ByName goos (str "local-unix") = some LocalUnix ∧
    str "windows" ∉ Names ∧
    str "unix" ∉ Names ∧
    (∀ n ∈ Names, (ByName goos n).isSome = true) :=
  ⟨rfl, rfl, rfl, rfl, by decide, by decide, byName_mem_names_isSome goos⟩

/-- Witness for C10: the "windows" alias resolves while a `Names` entry
also resolves. -/
theorem C10_aliases_strict_witness :
    ByName (str "linux") (str "windows") = some LocalWindows ∧
    (ByName (str "linux") (str "base")).isSome = true :=
  ⟨(C10_aliases_strict (str "linux")).1,
    (C10_aliases_strict (str "linux")).2.2.2.2.2.2 (str "base") (by decide)⟩

end Encodings
